import Mathlib

/-!
Shallow embedding of the adaptive GMAT quiz application (`src/app.py`).

Text is modelled as `List Char` (a Python `str` is a sequence of code
points).  The Python string operations used by the source are embedded
directly: `str.split("\n")`, `str.startswith`, `str.strip`,
`str.replace` (all occurrences, leftmost, non-overlapping) and `dict`
insertion (update in place for an existing key, append for a new key).
Difficulty levels and the scoring table live on Lean `String`s, since the
source only compares them for equality and looks them up in fixed tables.
Operations that can raise in Python (`list.index`, `dict[k]`) return
`Option`.
-/

namespace GmatApp

/-- A Python string: a sequence of characters. -/
abbrev Str := List Char

/-- Python `str.strip()`: remove whitespace from both ends. -/
def pyStrip (s : Str) : Str :=
  (((s.dropWhile Char.isWhitespace).reverse).dropWhile Char.isWhitespace).reverse

/--
Worker for `str.replace`: scan left to right; whenever the pattern `p` is
a prefix of the remaining text, emit `r` and skip past the occurrence,
otherwise keep one character.  The `fuel` argument only makes the
recursion structural; it is always called with fuel equal to the length
of the text, and each step consumes at least one character, so the
`0` case is never reached on those calls.
-/
def replaceAllAux (p r : Str) : Nat → Str → Str
  | _, [] => []
  | 0, s => s
  | fuel + 1, c :: rest =>
    if p.isPrefixOf (c :: rest) then
      r ++ replaceAllAux p r fuel (rest.drop (p.length - 1))
    else
      c :: replaceAllAux p r fuel rest

/-- Python `s.replace(p, r)` for the non-empty patterns used by the
source (the two fixed markers); leftmost non-overlapping occurrences of
`p` in `s` are replaced by `r`. -/
def replaceAll (p r s : Str) : Str :=
  if p.isEmpty then s else replaceAllAux p r s.length s

/-- Whether `p` occurs as a contiguous substring of `s`. -/
def containsSub (p s : Str) : Bool :=
  s.tails.any (fun t => p.isPrefixOf t)

/-- Prepend a character to the first chunk of a split (helper for
`pySplitNl`). -/
def consHead (c : Char) : List Str → List Str
  | [] => [[c]]
  | l :: ls => (c :: l) :: ls

/-- Python `text.split("\n")`: `n` separators give `n + 1` chunks; the
empty string gives `[""]`. -/
def pySplitNl : Str → List Str
  | [] => [[]]
  | c :: rest => if c = '\n' then [] :: pySplitNl rest else consHead c (pySplitNl rest)

/-- Python `d[k] = v` on a `dict` represented as an association list in
insertion order: an existing key keeps its position and gets the new
value, a new key is appended at the end. -/
def dictInsert (m : List (Char × Str)) (k : Char) (v : Str) : List (Char × Str) :=
  if m.any (fun p => p.1 == k) then
    m.map (fun p => if p.1 == k then (k, v) else p)
  else
    m ++ [(k, v)]

/-- The keys of the association-list dict, in order. -/
def dictKeys (m : List (Char × Str)) : List Char :=
  m.map Prod.fst

/-- The marker `"Question:"` (src/app.py line 64). -/
def qMarker : Str := ['Q', 'u', 'e', 's', 't', 'i', 'o', 'n', ':']

/-- The marker `"Correct Answer:"` (src/app.py line 71). -/
def caMarker : Str := ['C', 'o', 'r', 'r', 'e', 'c', 't', ' ', 'A', 'n', 's', 'w', 'e', 'r', ':']

/-- The five recognized option letters. -/
def optionLetters : List Char := ['A', 'B', 'C', 'D', 'E']

/-- The mutable scan variables of `parse_response`
(src/app.py lines 60-62): `question`, `options`, `correct`. -/
structure ScanState where
  question : Str
  options : List (Char × Str)
  correct : Str
deriving DecidableEq

/-- The body of the `for line in lines` loop of `parse_response`
(src/app.py lines 63-72), one line at a time. -/
def parseLine (s : ScanState) (line : Str) : ScanState :=
  if qMarker.isPrefixOf line then
    { s with question := pyStrip (replaceAll qMarker [] line) }
  else if ['A', ')'].isPrefixOf line || ['B', ')'].isPrefixOf line ||
          ['C', ')'].isPrefixOf line || ['D', ')'].isPrefixOf line ||
          ['E', ')'].isPrefixOf line then
    { s with options := dictInsert s.options (line.headD ' ') (pyStrip (line.drop 2)) }
  else if caMarker.isPrefixOf line then
    { s with correct := pyStrip (replaceAll caMarker [] line) }
  else
    s

/-- The structured question record returned by `parse_response`
(src/app.py line 78): `{"question": ..., "options": ..., "correct_answer": ...}`. -/
structure Question where
  question : Str
  options : List (Char × Str)
  correct_answer : Str
deriving DecidableEq

/-- The fixed fallback question (src/app.py lines 74-77). -/
def fallbackQuestion : Question :=
  { question := "What is 2 + 2?".toList
    options := [('A', "3".toList), ('B', "4".toList), ('C', "5".toList),
                ('D', "6".toList), ('E', "7".toList)]
    correct_answer := "B".toList }

/-- The scan phase of `parse_response` (src/app.py lines 59-72): split the
text into lines and run the loop from empty captures. -/
def scanText (text : Str) : ScanState :=
  (pySplitNl text).foldl parseLine ⟨[], [], []⟩

/-- The function `parse_response` (src/app.py lines 45-78) on the generated text.  The
source first extracts `response[0]["generated_text"]`; that envelope
access is elided and the function is taken on the text itself.  The
validation on line 73 uses Python truthiness: an empty string is falsy. -/
def parse_response (text : Str) : Question :=
  if (scanText text).question = [] ∨ (scanText text).options.length < 5 ∨
      (scanText text).correct = [] then
    fallbackQuestion
  else
    { question := (scanText text).question
      options := (scanText text).options
      correct_answer := (scanText text).correct }

/-- The acceptance shape of a question record: non-empty prompt, at least
5 captured options, non-empty correct letter (src/app.py line 73). -/
def ValidQuestion (q : Question) : Prop :=
  q.question ≠ [] ∧ 5 ≤ q.options.length ∧ q.correct_answer ≠ []

instance (q : Question) : Decidable (ValidQuestion q) := by
  unfold ValidQuestion; infer_instance

/-- The list `difficulty_levels` (src/app.py line 20). -/
def difficulty_levels : List String := ["easy", "medium", "hard"]

/-- The table `scoring` (src/app.py line 21); `none` models a `KeyError` on a key
outside the table. -/
def scoring (d : String) : Option Nat :=
  if d = "easy" then some 1
  else if d = "medium" then some 2
  else if d = "hard" then some 3
  else none

/-- The constant `TOTAL_QUESTIONS` (src/app.py line 19). -/
def TOTAL_QUESTIONS : Nat := 10

/-- The function `adjust_difficulty` (src/app.py lines 38-43).  `none` models the
`ValueError` of `list.index` on an unknown difficulty; `max(index-1, 0)`
is truncated subtraction on `Nat`. -/
def adjust_difficulty (current_difficulty : String) (correct : Bool) : Option String :=
  match difficulty_levels.findIdx? (fun d => d == current_difficulty) with
  | none => none
  | some index =>
    if correct then
      difficulty_levels[min (index + 1) (difficulty_levels.length - 1)]?
    else
      difficulty_levels[index - 1]?

/-- Whether an `adjust_difficulty` result landed inside the ladder. -/
def inLadder (o : Option String) : Bool :=
  match o with
  | some e => difficulty_levels.contains e
  | none => false

/-- The per-question record built by the Submit Answer handler
(src/app.py lines 129-136). -/
structure AnswerRecord where
  question : Str
  your_answer : Str
  correct_answer : Str
  difficulty : String
  points_awarded : Nat
  result : String
deriving DecidableEq

/-- The session state (src/app.py lines 23-32): `started`,
`current_question`, `score`, `current_difficulty`, `questions` (a dict
keyed by question number, kept in insertion order), and the optional
in-flight `current_question_data`. -/
structure SessionState where
  started : Bool
  current_question : Nat
  score : Nat
  current_difficulty : String
  questions : List (Nat × AnswerRecord)
  current_question_data : Option Question
deriving DecidableEq

/-- The freshly initialized session state (src/app.py lines 23-32). -/
def initialState : SessionState :=
  { started := false
    current_question := 0
    score := 0
    current_difficulty := "medium"
    questions := []
    current_question_data := none }

/-- The Start Test handler (src/app.py lines 103-105). -/
def startTest (st : SessionState) : SessionState :=
  { st with started := true }

/-- The Restart Test handler (src/app.py lines 158-161): every session
key is deleted, and the next run of the script re-initializes them all
(src/app.py lines 23-32). -/
def restartTest (_st : SessionState) : SessionState :=
  initialState

/-- The Submit Answer handler (src/app.py lines 122-145), given the
loaded question `qdata` and the selected answer `user_answer`.  `none`
models a raised `KeyError`/`ValueError` on a difficulty outside the
tables; the dict write on line 137 is an append because the key
`current_question + 1` is always fresh. -/
def submitAnswer (st : SessionState) (qdata : Question) (user_answer : Str) :
    Option SessionState :=
  let correct := qdata.correct_answer
  let is_correct := user_answer == correct
  match (if is_correct then scoring st.current_difficulty else some 0) with
  | none => none
  | some points =>
    match adjust_difficulty st.current_difficulty is_correct with
    | none => none
    | some newDifficulty =>
      some { st with
        score := st.score + points
        questions := st.questions ++
          [(st.current_question + 1,
            { question := qdata.question
              your_answer := user_answer
              correct_answer := correct
              difficulty := st.current_difficulty
              points_awarded := points
              result := if is_correct then "Correct" else "Incorrect" })]
        current_difficulty := newDifficulty
        current_question := st.current_question + 1
        current_question_data := none }

/-- Run the Submit Answer handler over a list of (question, answer)
pairs in order, stopping at the first failure. -/
def runAnswers : SessionState → List (Question × Str) → Option SessionState
  | st, [] => some st
  | st, (q, a) :: rest =>
    match submitAnswer st q a with
    | none => none
    | some st' => runAnswers st' rest

/-! ## Helper lemmas: scoring and difficulty tables -/

@[simp] theorem scoring_easy : scoring "easy" = some 1 := rfl

@[simp] theorem scoring_medium : scoring "medium" = some 2 := rfl

@[simp] theorem scoring_hard : scoring "hard" = some 3 := rfl

@[simp] theorem adjust_easy_true : adjust_difficulty "easy" true = some "medium" := rfl

@[simp] theorem adjust_medium_true : adjust_difficulty "medium" true = some "hard" := rfl

@[simp] theorem adjust_hard_true : adjust_difficulty "hard" true = some "hard" := rfl

@[simp] theorem adjust_easy_false : adjust_difficulty "easy" false = some "easy" := rfl

@[simp] theorem adjust_medium_false : adjust_difficulty "medium" false = some "easy" := rfl

@[simp] theorem adjust_hard_false : adjust_difficulty "hard" false = some "medium" := rfl

/-- Submitting a correct answer at difficulty `"medium"` awards 2 points
and moves the difficulty to `"hard"`. -/
theorem submitAnswer_correct_medium (st : SessionState) (q : Question) (a : Str)
    (h : a = q.correct_answer) (hd : st.current_difficulty = "medium") :
    ∃ st', submitAnswer st q a = some st' ∧ st'.current_difficulty = "hard" ∧
      st'.score = st.score + 2 :=
  ⟨{ st with
      score := st.score + 2
      questions := st.questions ++
        [(st.current_question + 1,
          { question := q.question, your_answer := a, correct_answer := q.correct_answer
            difficulty := st.current_difficulty, points_awarded := 2, result := "Correct" })]
      current_difficulty := "hard"
      current_question := st.current_question + 1
      current_question_data := none },
    by simp [submitAnswer, hd, h], rfl, rfl⟩

/-- Submitting a correct answer at difficulty `"hard"` awards 3 points
and keeps the difficulty at `"hard"`. -/
theorem submitAnswer_correct_hard (st : SessionState) (q : Question) (a : Str)
    (h : a = q.correct_answer) (hd : st.current_difficulty = "hard") :
    ∃ st', submitAnswer st q a = some st' ∧ st'.current_difficulty = "hard" ∧
      st'.score = st.score + 3 :=
  ⟨{ st with
      score := st.score + 3
      questions := st.questions ++
        [(st.current_question + 1,
          { question := q.question, your_answer := a, correct_answer := q.correct_answer
            difficulty := st.current_difficulty, points_awarded := 3, result := "Correct" })]
      current_difficulty := "hard"
      current_question := st.current_question + 1
      current_question_data := none },
    by simp [submitAnswer, hd, h], rfl, rfl⟩

/-- Starting at difficulty `"hard"`, a run of all-correct answers stays
at `"hard"` and adds 3 points per question. -/
theorem runAnswers_all_correct_hard (l : List (Question × Str)) :
    ∀ st : SessionState, st.current_difficulty = "hard" →
      (∀ p ∈ l, p.2 = p.1.correct_answer) →
      ∃ st', runAnswers st l = some st' ∧ st'.current_difficulty = "hard" ∧
        st'.score = st.score + 3 * l.length := by
  induction l with
  | nil =>
    intro st hd _
    exact ⟨st, rfl, hd, by simp⟩
  | cons p rest ih =>
    intro st hd hc
    obtain ⟨q, a⟩ := p
    have h1 : a = q.correct_answer := hc (q, a) (List.mem_cons_self _ _)
    obtain ⟨st1, hsub, hd1, hs1⟩ := submitAnswer_correct_hard st q a h1 hd
    obtain ⟨st', h2, h3, h4⟩ :=
      ih st1 hd1 (fun p hp => hc p (List.mem_cons_of_mem _ hp))
    refine ⟨st', ?_, h3, ?_⟩
    · simp only [runAnswers, hsub]
      exact h2
    · simp only [List.length_cons]
      omega

/-! ## C1, C2, C5, C6 -/

/-- C1: from the freshly started session (question index 0, score 0,
difficulty "medium"), any 10 consecutive correct answers move the
difficulty to "hard" after the first answer (so question 2 is asked at
"hard"), keep it at "hard" after every later answer, and end with
cumulative score exactly 29 = 2 + 3 * 9. -/
theorem c1_ten_correct_answers (qas : List (Question × Str)) (k : Nat)
    (hlen : qas.length = 10)
    (hcorrect : ∀ p ∈ qas, p.2 = p.1.correct_answer)
    (hk1 : 1 ≤ k) (hk10 : k ≤ 10) :
    (startTest initialState).current_difficulty = "medium" ∧
    (∃ stk, runAnswers (startTest initialState) (qas.take k) = some stk ∧
      stk.current_difficulty = "hard") ∧
    (∃ final, runAnswers (startTest initialState) qas = some final ∧
      final.score = 29 ∧ final.current_difficulty = "hard") := by
  obtain ⟨q, a, rest, rfl⟩ : ∃ q a rest, qas = (q, a) :: rest := by
    cases qas with
    | nil => simp at hlen
    | cons p rest => exact ⟨p.1, p.2, rest, rfl⟩
  have h1 : a = q.correct_answer := hcorrect (q, a) (List.mem_cons_self _ _)
  obtain ⟨st1, hsub, hd1, hs1⟩ :=
    submitAnswer_correct_medium (startTest initialState) q a h1 rfl
  have hs1' : st1.score = 2 := by
    simpa [startTest, initialState] using hs1
  refine ⟨rfl, ?_, ?_⟩
  · obtain ⟨k', rfl⟩ : ∃ k', k = k' + 1 := ⟨k - 1, by omega⟩
    obtain ⟨stk, h2, h3, _⟩ :=
      runAnswers_all_correct_hard (rest.take k') st1 hd1
        (fun p hp => hcorrect p (List.mem_cons_of_mem _ (List.take_subset _ _ hp)))
    refine ⟨stk, ?_, h3⟩
    simp only [List.take_succ_cons, runAnswers, hsub]
    exact h2
  · obtain ⟨final, h2, h3, h4⟩ :=
      runAnswers_all_correct_hard rest st1 hd1
        (fun p hp => hcorrect p (List.mem_cons_of_mem _ hp))
    have hrest : rest.length = 9 := by simp at hlen; omega
    refine ⟨final, ?_, ?_, h3⟩
    · simp only [runAnswers, hsub]
      exact h2
    · omega

/-- C1 witness: ten correct answers on the concrete fallback question,
checked at k = 1. -/
theorem c1_ten_correct_answers_witness :
    (startTest initialState).current_difficulty = "medium" ∧
    (∃ stk, runAnswers (startTest initialState)
        ((List.replicate 10 (fallbackQuestion, "B".toList)).take 1) = some stk ∧
      stk.current_difficulty = "hard") ∧
    (∃ final, runAnswers (startTest initialState)
        (List.replicate 10 (fallbackQuestion, "B".toList)) = some final ∧
      final.score = 29 ∧ final.current_difficulty = "hard") :=
  c1_ten_correct_answers (List.replicate 10 (fallbackQuestion, "B".toList)) 1
    (by decide) (by decide) (by decide) (by decide)

/-- C2: on every ladder difficulty and both correctness values,
`adjust_difficulty` stays inside the ladder; a correct answer moves one
step up clamped at "hard", an incorrect one moves one step down clamped
at "easy". -/
theorem c2_adjust_difficulty_ladder :
    (∀ d ∈ difficulty_levels, ∀ c : Bool, inLadder (adjust_difficulty d c) = true) ∧
    adjust_difficulty "easy" true = some "medium" ∧
    adjust_difficulty "medium" true = some "hard" ∧
    adjust_difficulty "hard" true = some "hard" ∧
    adjust_difficulty "easy" false = some "easy" ∧
    adjust_difficulty "medium" false = some "easy" ∧
    adjust_difficulty "hard" false = some "medium" := by
  decide

/-- C2 witness: the membership clause applied at "medium" / correct. -/
theorem c2_adjust_difficulty_ladder_witness :
    inLadder (adjust_difficulty "medium" true) = true :=
  c2_adjust_difficulty_ladder.1 "medium" (by decide) true

/-- C5: for every submitted answer at a ladder difficulty, the recorded
and added points are 1/2/3 for a correct answer at easy/medium/hard and
0 for an incorrect answer, the points are added to the running score,
and the score never decreases. -/
theorem c5_points_awarded (st : SessionState) (q : Question) (ua : Str)
    (hd : st.current_difficulty ∈ difficulty_levels) :
    ∃ st',
      submitAnswer st q ua = some st' ∧
      st'.score = st.score +
        (if ua = q.correct_answer then
          (if st.current_difficulty = "easy" then 1
           else if st.current_difficulty = "medium" then 2 else 3)
         else 0) ∧
      st.score ≤ st'.score ∧
      st'.questions = st.questions ++
        [(st.current_question + 1,
          { question := q.question
            your_answer := ua
            correct_answer := q.correct_answer
            difficulty := st.current_difficulty
            points_awarded :=
              (if ua = q.correct_answer then
                (if st.current_difficulty = "easy" then 1
                 else if st.current_difficulty = "medium" then 2 else 3)
               else 0)
            result := if ua = q.correct_answer then "Correct" else "Incorrect" })] := by
  have hd' : st.current_difficulty = "easy" ∨ st.current_difficulty = "medium" ∨
      st.current_difficulty = "hard" := by
    simpa [difficulty_levels] using hd
  rcases hd' with h | h | h <;> by_cases hc : ua = q.correct_answer <;>
    first
    | (have hb : (ua == q.correct_answer) = true := beq_iff_eq.mpr hc
       simp [submitAnswer, h, hb, hc])
    | (have hb : (ua == q.correct_answer) = false := beq_eq_false_iff_ne.mpr hc
       simp [submitAnswer, h, hb, hc])

/-- C5 witness: a correct answer at the initial "medium" difficulty on
the concrete fallback question. -/
theorem c5_points_awarded_witness :
    ∃ st',
      submitAnswer (startTest initialState) fallbackQuestion "B".toList = some st' ∧
      st'.score = (startTest initialState).score +
        (if "B".toList = fallbackQuestion.correct_answer then
          (if (startTest initialState).current_difficulty = "easy" then 1
           else if (startTest initialState).current_difficulty = "medium" then 2 else 3)
         else 0) ∧
      (startTest initialState).score ≤ st'.score ∧
      st'.questions = (startTest initialState).questions ++
        [((startTest initialState).current_question + 1,
          { question := fallbackQuestion.question
            your_answer := "B".toList
            correct_answer := fallbackQuestion.correct_answer
            difficulty := (startTest initialState).current_difficulty
            points_awarded :=
              (if "B".toList = fallbackQuestion.correct_answer then
                (if (startTest initialState).current_difficulty = "easy" then 1
                 else if (startTest initialState).current_difficulty = "medium" then 2 else 3)
               else 0)
            result := if "B".toList = fallbackQuestion.correct_answer then "Correct"
                      else "Incorrect" })] :=
  c5_points_awarded (startTest initialState) fallbackQuestion "B".toList (by decide)

/-- C6: restarting from any session state and starting again reproduces
the identical initial session: question index 0, score 0, difficulty
"medium", empty answer-record collection. -/
theorem c6_restart_reproduces_initial_state (st : SessionState) :
    restartTest st = initialState ∧
    startTest (restartTest st) = startTest initialState ∧
    (startTest (restartTest st)).current_question = 0 ∧
    (startTest (restartTest st)).score = 0 ∧
    (startTest (restartTest st)).current_difficulty = "medium" ∧
    (startTest (restartTest st)).questions = [] := by
  exact ⟨rfl, rfl, rfl, rfl, rfl, rfl⟩

/-- C6 witness: restart applied to a started, in-progress state. -/
theorem c6_restart_reproduces_initial_state_witness :
    restartTest (startTest initialState) = initialState ∧
    startTest (restartTest (startTest initialState)) = startTest initialState ∧
    (startTest (restartTest (startTest initialState))).current_question = 0 ∧
    (startTest (restartTest (startTest initialState))).score = 0 ∧
    (startTest (restartTest (startTest initialState))).current_difficulty = "medium" ∧
    (startTest (restartTest (startTest initialState))).questions = [] :=
  c6_restart_reproduces_initial_state (startTest initialState)

/-! ## Helper lemmas: prefixes, replace, split -/

@[simp] theorem isPrefixOf_nil_left (l : Str) : List.isPrefixOf ([] : Str) l = true := by
  cases l <;> rfl

@[simp] theorem isPrefixOf_cons_nil (a : Char) (p : Str) :
    (a :: p).isPrefixOf ([] : Str) = false := rfl

@[simp] theorem isPrefixOf_cons_cons (a b : Char) (p l : Str) :
    (a :: p).isPrefixOf (b :: l) = ((a == b) && p.isPrefixOf l) := rfl

theorem isPrefixOf_append_self (p t : Str) : p.isPrefixOf (p ++ t) = true := by
  induction p with
  | nil => simp
  | cons a p ih => simp [ih]

theorem isPrefixOf_elim {p l : Str} (h : p.isPrefixOf l = true) : ∃ t, l = p ++ t := by
  induction p generalizing l with
  | nil => exact ⟨l, rfl⟩
  | cons a p ih =>
    cases l with
    | nil => simp at h
    | cons b l' =>
      rw [isPrefixOf_cons_cons, Bool.and_eq_true] at h
      obtain ⟨t, rfl⟩ := ih h.2
      exact ⟨t, by rw [beq_iff_eq.mp h.1]; rfl⟩

theorem isPrefixOf_two_elim {a b : Char} {l : Str} (h : [a, b].isPrefixOf l = true) :
    ∃ t, l = a :: b :: t := by
  obtain ⟨t, rfl⟩ := isPrefixOf_elim h
  exact ⟨t, rfl⟩

theorem containsSub_cons (p : Str) (c : Char) (rest : Str) :
    containsSub p (c :: rest) = (p.isPrefixOf (c :: rest) || containsSub p rest) := by
  simp [containsSub, List.tails_cons]

theorem replaceAllAux_no_occurrence {p : Str} (r : Str) {s : Str}
    (h : containsSub p s = false) (fuel : Nat) : replaceAllAux p r fuel s = s := by
  induction fuel generalizing s with
  | zero => cases s <;> rfl
  | succ fuel ih =>
    cases s with
    | nil => rfl
    | cons c rest =>
      rw [containsSub_cons, Bool.or_eq_false_iff] at h
      simp only [replaceAllAux, h.1, Bool.false_eq_true, if_false]
      rw [ih h.2]

theorem replaceAll_no_occurrence {p : Str} (r : Str) {s : Str}
    (h : containsSub p s = false) : replaceAll p r s = s := by
  unfold replaceAll
  split
  · rfl
  · exact replaceAllAux_no_occurrence r h _

/-- Removing every occurrence of a non-empty marker from a line that is
the marker followed by `t`, where `t` contains no further occurrence,
leaves exactly `t`. -/
theorem replaceAll_marker_append {p t : Str} (hp : p ≠ [])
    (h : containsSub p t = false) : replaceAll p [] (p ++ t) = t := by
  cases p with
  | nil => exact absurd rfl hp
  | cons a p' =>
    have hpre : (a :: p').isPrefixOf (a :: (p' ++ t)) = true := by
      have := isPrefixOf_append_self (a :: p') t
      rwa [List.cons_append] at this
    have hne : ¬((a :: p').isEmpty = true) := by simp
    unfold replaceAll
    rw [if_neg hne]
    show replaceAllAux (a :: p') [] ((p' ++ t).length + 1) (a :: (p' ++ t)) = t
    simp only [replaceAllAux, hpre, if_true]
    have hdrop : (p' ++ t).drop ((a :: p').length - 1) = t := by
      simp only [List.length_cons, Nat.add_sub_cancel]
      exact List.drop_left p' t
    rw [hdrop, List.nil_append]
    exact replaceAllAux_no_occurrence [] h _

@[simp] theorem pySplitNl_nil : pySplitNl [] = [[]] := rfl

theorem pySplitNl_append_cons {a : Str} (rest : Str) (h : '\n' ∉ a) :
    pySplitNl (a ++ '\n' :: rest) = a :: pySplitNl rest := by
  induction a with
  | nil => simp [pySplitNl]
  | cons c a' ih =>
    have hc : ¬(c = '\n') := fun e => h (e ▸ List.mem_cons_self _ _)
    have h' : '\n' ∉ a' := fun m => h (List.mem_cons_of_mem _ m)
    rw [List.cons_append]
    show (if c = '\n' then [] :: pySplitNl (a' ++ '\n' :: rest)
          else consHead c (pySplitNl (a' ++ '\n' :: rest))) = (c :: a') :: pySplitNl rest
    rw [if_neg hc, ih h']
    rfl

theorem pySplitNl_no_newline {a : Str} (h : '\n' ∉ a) : pySplitNl a = [a] := by
  induction a with
  | nil => rfl
  | cons c a' ih =>
    have hc : ¬(c = '\n') := fun e => h (e ▸ List.mem_cons_self _ _)
    have h' : '\n' ∉ a' := fun m => h (List.mem_cons_of_mem _ m)
    show (if c = '\n' then [] :: pySplitNl a' else consHead c (pySplitNl a')) = [c :: a']
    rw [if_neg hc, ih h']
    rfl

/-! ## Helper lemmas: parseLine and parse_response -/

/-- A line that does not start with `"Correct Answer:"` never changes the
captured correct letter. -/
theorem parseLine_correct_unchanged (s : ScanState) (l : Str)
    (h : caMarker.isPrefixOf l = false) :
    (parseLine s l).correct = s.correct := by
  unfold parseLine
  split
  · rfl
  · split
    · rfl
    · split
      · simp_all
      · rfl

theorem scanText_correct_of_no_ca {text : Str}
    (h : ∀ line ∈ pySplitNl text, caMarker.isPrefixOf line = false) :
    (scanText text).correct = [] := by
  have gen : ∀ (lines : List Str) (s : ScanState),
      (∀ l ∈ lines, caMarker.isPrefixOf l = false) →
      (lines.foldl parseLine s).correct = s.correct := by
    intro lines
    induction lines with
    | nil => intro s _; rfl
    | cons l ls ih =>
      intro s hl
      rw [List.foldl_cons, ih _ (fun x hx => hl x (List.mem_cons_of_mem _ hx)),
        parseLine_correct_unchanged s l (hl l (List.mem_cons_self _ _))]
  exact gen (pySplitNl text) ⟨[], [], []⟩ h

theorem parse_response_fallback {text : Str}
    (h : (scanText text).question = [] ∨ (scanText text).options.length < 5 ∨
      (scanText text).correct = []) :
    parse_response text = fallbackQuestion := by
  unfold parse_response
  rw [if_pos h]

theorem parse_response_accepted {text : Str}
    (h : (scanText text).question ≠ [] ∧ 5 ≤ (scanText text).options.length ∧
      (scanText text).correct ≠ []) :
    parse_response text =
      { question := (scanText text).question
        options := (scanText text).options
        correct_answer := (scanText text).correct } := by
  unfold parse_response
  rw [if_neg]
  rintro (h1 | h1 | h1)
  · exact h.1 h1
  · exact absurd h.2.1 (Nat.not_le_of_lt h1)
  · exact h.2.2 h1

/-! ## C3, C7, C9 -/

/-- C3: the scanned result is accepted exactly when the captured prompt
is non-empty, at least 5 options were captured, and the captured correct
letter is non-empty; in every other case — in particular whenever no
line starts with "Correct Answer:" — the parser returns the fixed
fallback question (prompt "What is 2 + 2?", options 3/4/5/6/7, correct
letter "B"). -/
theorem c3_validation_gate (text : Str) :
    (¬((scanText text).question ≠ [] ∧ 5 ≤ (scanText text).options.length ∧
        (scanText text).correct ≠ []) →
      parse_response text = fallbackQuestion) ∧
    (((scanText text).question ≠ [] ∧ 5 ≤ (scanText text).options.length ∧
        (scanText text).correct ≠ []) →
      parse_response text =
        { question := (scanText text).question
          options := (scanText text).options
          correct_answer := (scanText text).correct }) ∧
    ((∀ line ∈ pySplitNl text, caMarker.isPrefixOf line = false) →
      parse_response text = fallbackQuestion) ∧
    fallbackQuestion =
      { question := "What is 2 + 2?".toList
        options := [('A', "3".toList), ('B', "4".toList), ('C', "5".toList),
                    ('D', "6".toList), ('E', "7".toList)]
        correct_answer := "B".toList } := by
  refine ⟨?_, fun h => parse_response_accepted h, ?_, rfl⟩
  · intro h
    apply parse_response_fallback
    by_contra hno
    push_neg at hno
    exact h hno
  · intro h
    exact parse_response_fallback (Or.inr (Or.inr (scanText_correct_of_no_ca h)))

/-- C3 witness: a text with a question and options but no
"Correct Answer:" line falls back. -/
theorem c3_validation_gate_witness :
    parse_response ("Question: ok\nA) 1\nB) 2\nC) 3\nD) 4\nE) 5".toList) = fallbackQuestion :=
  (c3_validation_gate ("Question: ok\nA) 1\nB) 2\nC) 3\nD) 4\nE) 5".toList)).2.2.1 (by decide)

/-- C7: the parser is total — on every input text it returns either the
accepted scanned record or the fixed fallback question, and the returned
record always satisfies the acceptance shape (so malformed input is
never surfaced as a failure). -/
theorem c7_parser_total (text : Str) :
    ValidQuestion (parse_response text) ∧
    (parse_response text = fallbackQuestion ∨
      parse_response text =
        { question := (scanText text).question
          options := (scanText text).options
          correct_answer := (scanText text).correct }) := by
  by_cases h : (scanText text).question = [] ∨ (scanText text).options.length < 5 ∨
      (scanText text).correct = []
  · rw [parse_response_fallback h]
    exact ⟨by decide, Or.inl rfl⟩
  · push_neg at h
    rw [parse_response_accepted h]
    exact ⟨⟨h.1, h.2.1, h.2.2⟩, Or.inr rfl⟩

/-- C7 witness: totality at a malformed concrete text. -/
theorem c7_parser_total_witness :
    ValidQuestion (parse_response ("garbage output".toList)) ∧
    (parse_response ("garbage output".toList) = fallbackQuestion ∨
      parse_response ("garbage output".toList) =
        { question := (scanText ("garbage output".toList)).question
          options := (scanText ("garbage output".toList)).options
          correct_answer := (scanText ("garbage output".toList)).correct }) :=
  c7_parser_total ("garbage output".toList)

/-- C9 as stated fails: on the line "Question: Question: again" the code
removes **every** occurrence of the marker (Python `str.replace`), so the
prompt is not the characters after the leading marker, trimmed. -/
theorem c9_prompt_strip_counterexample :
    (scanText ("Question: Question: again".toList)).question ≠
      pyStrip (("Question: Question: again".toList).drop qMarker.length) := by
  decide

/-- A line that is the marker `"Question:"` followed by `t` takes the
question branch of the scanner. -/
theorem parseLine_question_line (s : ScanState) (t : Str) :
    parseLine s (qMarker ++ t) =
      { s with question := pyStrip (replaceAll qMarker [] (qMarker ++ t)) } := by
  unfold parseLine
  rw [if_pos (isPrefixOf_append_self qMarker t)]

/-- C9 (amended): for every line beginning with "Question:" whose
remainder contains no further occurrence of "Question:", the parser sets
the prompt to the characters of the line after the marker, trimmed. -/
theorem c9_question_line_sets_prompt (s : ScanState) (t : Str)
    (h : containsSub qMarker t = false) :
    (parseLine s (qMarker ++ t)).question = pyStrip t := by
  rw [parseLine_question_line]
  show pyStrip (replaceAll qMarker [] (qMarker ++ t)) = pyStrip t
  rw [replaceAll_marker_append (by decide) h]

/-- C9 witness: the line "Question: hi" sets the prompt to "hi". -/
theorem c9_question_line_sets_prompt_witness :
    (parseLine ⟨[], [], []⟩ (qMarker ++ " hi".toList)).question = pyStrip (" hi".toList) :=
  c9_question_line_sets_prompt ⟨[], [], []⟩ (" hi".toList) (by decide)

/-! ## Helper lemmas: the options dict -/

@[simp] theorem dictKeys_nil : dictKeys [] = [] := rfl

@[simp] theorem dictKeys_cons (p : Char × Str) (m : List (Char × Str)) :
    dictKeys (p :: m) = p.1 :: dictKeys m := rfl

theorem dictKeys_append (m₁ m₂ : List (Char × Str)) :
    dictKeys (m₁ ++ m₂) = dictKeys m₁ ++ dictKeys m₂ := by
  simp [dictKeys]

theorem dictKeys_length (m : List (Char × Str)) : (dictKeys m).length = m.length :=
  List.length_map _ _

theorem dictInsert_of_mem {m : List (Char × Str)} {k : Char} (v : Str)
    (h : m.any (fun p => p.1 == k) = true) :
    dictInsert m k v = m.map (fun p => if p.1 == k then (k, v) else p) := by
  unfold dictInsert
  rw [if_pos h]

theorem dictInsert_of_not_mem {m : List (Char × Str)} {k : Char} (v : Str)
    (h : m.any (fun p => p.1 == k) = false) :
    dictInsert m k v = m ++ [(k, v)] := by
  unfold dictInsert
  rw [h]
  simp

theorem dictInsert_cons_of_ne (k' : Char) (v' : Str) (m : List (Char × Str))
    (k : Char) (v : Str) (h : (k' == k) = false) :
    dictInsert ((k', v') :: m) k v = (k', v') :: dictInsert m k v := by
  cases han : m.any (fun p => p.1 == k) with
  | true =>
    rw [dictInsert_of_mem v (by simp [List.any_cons, han]),
      dictInsert_of_mem v han, List.map_cons]
    simp [h]
  | false =>
    rw [dictInsert_of_not_mem v (by simp [List.any_cons, h, han]),
      dictInsert_of_not_mem v han, List.cons_append]

theorem any_key_iff (m : List (Char × Str)) (k : Char) :
    m.any (fun p => p.1 == k) = true ↔ k ∈ dictKeys m := by
  induction m with
  | nil => simp
  | cons p m ih =>
    obtain ⟨k', v'⟩ := p
    simp only [List.any_cons, Bool.or_eq_true, ih, dictKeys_cons, List.mem_cons, beq_iff_eq]
    constructor
    · rintro (h | h)
      · exact Or.inl h.symm
      · exact Or.inr h
    · rintro (h | h)
      · exact Or.inl h.symm
      · exact Or.inr h

theorem dictKeys_map_update (m : List (Char × Str)) (k : Char) (v : Str) :
    dictKeys (m.map (fun p => if p.1 == k then (k, v) else p)) = dictKeys m := by
  induction m with
  | nil => rfl
  | cons p m ih =>
    obtain ⟨k', v'⟩ := p
    cases h : (k' == k) with
    | true =>
      have he : k' = k := beq_iff_eq.mp h
      subst he
      simp only [List.map_cons, h, if_true, dictKeys_cons, ih]
    | false =>
      simp only [List.map_cons, h, Bool.false_eq_true, if_false, dictKeys_cons, ih]

theorem dictKeys_dictInsert (m : List (Char × Str)) (k : Char) (v : Str) :
    dictKeys (dictInsert m k v) =
      if k ∈ dictKeys m then dictKeys m else dictKeys m ++ [k] := by
  by_cases h : k ∈ dictKeys m
  · rw [if_pos h, dictInsert_of_mem v ((any_key_iff m k).mpr h), dictKeys_map_update]
  · have hf : m.any (fun p => p.1 == k) = false := by
      cases hb : m.any (fun p => p.1 == k) with
      | true => exact absurd ((any_key_iff m k).mp hb) h
      | false => rfl
    rw [if_neg h, dictInsert_of_not_mem v hf, dictKeys_append]
    rfl

theorem nodup_dictKeys_dictInsert {m : List (Char × Str)} {k : Char} (v : Str)
    (h : (dictKeys m).Nodup) : (dictKeys (dictInsert m k v)).Nodup := by
  rw [dictKeys_dictInsert]
  split
  · exact h
  · rename_i hnm
    rw [List.nodup_append]
    refine ⟨h, List.nodup_singleton k, ?_⟩
    intro x hx hx'
    rw [List.mem_singleton] at hx'
    exact hnm (hx' ▸ hx)

theorem mem_dictKeys_dictInsert {m : List (Char × Str)} {k : Char} (v : Str)
    {x : Char} (hx : x ∈ dictKeys (dictInsert m k v)) : x ∈ dictKeys m ∨ x = k := by
  rw [dictKeys_dictInsert] at hx
  by_cases h : k ∈ dictKeys m
  · rw [if_pos h] at hx
    exact Or.inl hx
  · rw [if_neg h] at hx
    rcases List.mem_append.mp hx with h1 | h1
    · exact Or.inl h1
    · exact Or.inr (List.mem_singleton.mp h1)

theorem dictInsert_length (m : List (Char × Str)) (k : Char) (v : Str) :
    (dictInsert m k v).length =
      if k ∈ dictKeys m then m.length else m.length + 1 := by
  rw [← dictKeys_length, dictKeys_dictInsert]
  split
  · exact dictKeys_length m
  · rw [List.length_append, dictKeys_length]
    rfl

theorem lookup_dictInsert_self (m : List (Char × Str)) (k : Char) (v : Str) :
    (dictInsert m k v).lookup k = some v := by
  induction m with
  | nil =>
    simp [dictInsert, List.lookup]
  | cons p m ih =>
    obtain ⟨k', v'⟩ := p
    cases h : (k' == k) with
    | true =>
      rw [dictInsert_of_mem v (by simp [List.any_cons, h]), List.map_cons]
      simp only [h, if_true]
      simp [List.lookup]
    | false =>
      rw [dictInsert_cons_of_ne k' v' m k v h]
      have h2 : (k == k') = false := by
        rw [beq_eq_false_iff_ne]
        exact fun e => by simp [e] at h
      simp [List.lookup, h2, ih]

theorem lookup_map_update_ne (m : List (Char × Str)) {k k₂ : Char} (v : Str)
    (hb : (k₂ == k) = false) :
    (m.map (fun p => if p.1 == k then (k, v) else p)).lookup k₂ = m.lookup k₂ := by
  induction m with
  | nil => rfl
  | cons p m ih =>
    obtain ⟨a, b⟩ := p
    cases ha : (a == k) with
    | true =>
      have hae : a = k := beq_iff_eq.mp ha
      have h2 : (k₂ == a) = false := hae ▸ hb
      simp only [List.map_cons, ha, if_true]
      simp only [List.lookup, hb, h2]
      exact ih
    | false =>
      simp only [List.map_cons, ha, Bool.false_eq_true, if_false]
      cases h2 : (k₂ == a) with
      | true => simp [List.lookup, h2]
      | false =>
        simp only [List.lookup, h2]
        exact ih

theorem lookup_dictInsert_ne (m : List (Char × Str)) {k k₂ : Char} (v : Str)
    (h : k₂ ≠ k) : (dictInsert m k v).lookup k₂ = m.lookup k₂ := by
  have hb : (k₂ == k) = false := beq_eq_false_iff_ne.mpr h
  induction m with
  | nil =>
    simp [dictInsert, List.lookup, hb]
  | cons p m ih =>
    obtain ⟨k', v'⟩ := p
    cases hk : (k' == k) with
    | true =>
      have hkeq : k' = k := beq_iff_eq.mp hk
      rw [dictInsert_of_mem v (by simp [List.any_cons, hk]), List.map_cons]
      simp only [hk, if_true]
      have hb' : (k₂ == k') = false := beq_eq_false_iff_ne.mpr (fun e => h (e.trans hkeq))
      simp only [List.lookup, hb, hb']
      exact lookup_map_update_ne m v hb
    | false =>
      rw [dictInsert_cons_of_ne k' v' m k v hk]
      cases hb2 : (k₂ == k') with
      | true =>
        simp [List.lookup, hb2]
      | false =>
        simp [List.lookup, hb2, ih]

theorem lookup_isSome_iff (m : List (Char × Str)) (k : Char) :
    ((m.lookup k).isSome = true) ↔ k ∈ dictKeys m := by
  induction m with
  | nil => simp [List.lookup]
  | cons p m ih =>
    obtain ⟨k', v'⟩ := p
    cases h : (k == k') with
    | true =>
      have he : k = k' := beq_iff_eq.mp h
      simp [List.lookup, h, he]
    | false =>
      have hne : k ≠ k' := beq_eq_false_iff_ne.mp h
      simp [List.lookup, h, ih, hne]

/-! ## Helper lemmas: the option branch of the scanner -/

/-- A line passing the option-marker test is one of the five letters
followed by a closing parenthesis. -/
theorem option_cond_elim {l : Str}
    (h : (['A', ')'].isPrefixOf l || ['B', ')'].isPrefixOf l || ['C', ')'].isPrefixOf l ||
         ['D', ')'].isPrefixOf l || ['E', ')'].isPrefixOf l) = true) :
    ∃ k t, l = k :: ')' :: t ∧ k ∈ optionLetters := by
  simp only [Bool.or_eq_true] at h
  rcases h with ((((h | h) | h) | h) | h) <;>
    · obtain ⟨t, rfl⟩ := isPrefixOf_two_elim h
      exact ⟨_, t, rfl, by decide⟩

/-- A line of the shape letter-parenthesis-rest takes the option branch
and records the trimmed rest under that letter. -/
theorem parseLine_option_line (s : ScanState) (k : Char) (hk : k ∈ optionLetters) (t : Str) :
    parseLine s (k :: ')' :: t) =
      { s with options := dictInsert s.options k (pyStrip t) } := by
  have hk' : k = 'A' ∨ k = 'B' ∨ k = 'C' ∨ k = 'D' ∨ k = 'E' := by
    simpa [optionLetters] using hk
  rcases hk' with rfl | rfl | rfl | rfl | rfl <;>
    · unfold parseLine
      rw [if_neg (by simp [qMarker]), if_pos (by simp)]
      rfl

/-- A line not starting with the marker of letter `k` never changes what
the options dict stores for `k`. -/
theorem parseLine_lookup_unchanged (s : ScanState) (l : Str) {k : Char}
    (hl : ([k, ')'] : Str).isPrefixOf l = false) :
    (parseLine s l).options.lookup k = s.options.lookup k := by
  unfold parseLine
  split
  · rfl
  · split
    · rename_i hcond
      obtain ⟨k2, t, rfl, hk2⟩ := option_cond_elim hcond
      have hne : k ≠ k2 := by
        rintro rfl
        simp at hl
      show (dictInsert s.options k2 (pyStrip t)).lookup k = s.options.lookup k
      exact lookup_dictInsert_ne s.options (pyStrip t) hne
    · split
      · rfl
      · rfl

/-- A line matching none of the markers leaves the whole scan state
unchanged. -/
theorem parseLine_unmatched (s : ScanState) (l : Str)
    (h1 : qMarker.isPrefixOf l = false)
    (h2 : ∀ k ∈ optionLetters, ([k, ')'] : Str).isPrefixOf l = false)
    (h3 : caMarker.isPrefixOf l = false) :
    parseLine s l = s := by
  have hA := h2 'A' (by decide)
  have hB := h2 'B' (by decide)
  have hC := h2 'C' (by decide)
  have hD := h2 'D' (by decide)
  have hE := h2 'E' (by decide)
  unfold parseLine
  rw [if_neg (by simp [h1]), if_neg (by simp [hA, hB, hC, hD, hE]), if_neg (by simp [h3])]

/-- One scanner step keeps the option keys distinct and inside the five
recognized letters. -/
theorem parseLine_options_invariant (s : ScanState) (l : Str)
    (h1 : (dictKeys s.options).Nodup) (h2 : ∀ x ∈ dictKeys s.options, x ∈ optionLetters) :
    (dictKeys (parseLine s l).options).Nodup ∧
      ∀ x ∈ dictKeys (parseLine s l).options, x ∈ optionLetters := by
  unfold parseLine
  split
  · exact ⟨h1, h2⟩
  · split
    · rename_i hcond
      obtain ⟨k2, t, rfl, hk2⟩ := option_cond_elim hcond
      constructor
      · show (dictKeys (dictInsert s.options k2 (pyStrip t))).Nodup
        exact nodup_dictKeys_dictInsert _ h1
      · show ∀ x ∈ dictKeys (dictInsert s.options k2 (pyStrip t)), x ∈ optionLetters
        intro x hx
        rcases mem_dictKeys_dictInsert _ hx with h | rfl
        · exact h2 x h
        · exact hk2
    · split
      · exact ⟨h1, h2⟩
      · exact ⟨h1, h2⟩

theorem scanText_options_invariant (text : Str) :
    (dictKeys (scanText text).options).Nodup ∧
      ∀ x ∈ dictKeys (scanText text).options, x ∈ optionLetters := by
  have gen : ∀ (lines : List Str) (s : ScanState),
      (dictKeys s.options).Nodup → (∀ x ∈ dictKeys s.options, x ∈ optionLetters) →
      (dictKeys (lines.foldl parseLine s).options).Nodup ∧
        ∀ x ∈ dictKeys (lines.foldl parseLine s).options, x ∈ optionLetters := by
    intro lines
    induction lines with
    | nil => intro s h1 h2; exact ⟨h1, h2⟩
    | cons l ls ih =>
      intro s h1 h2
      rw [List.foldl_cons]
      obtain ⟨g1, g2⟩ := parseLine_options_invariant s l h1 h2
      exact ih _ g1 g2
  exact gen (pySplitNl text) ⟨[], [], []⟩ (by simp) (by simp)

/-! ## C8, C10 -/

/-- C8: when several lines carry the same option-letter marker, the
captured text for that letter comes from the last such line (a later
`dict` write overwrites an earlier one); a line matching no marker at
all leaves the captured prompt, options and correct letter unchanged. -/
theorem c8_duplicate_letters_last_wins :
    (∀ (s : ScanState) (lines : List Str) (k : Char) (line : Str), k ∈ optionLetters →
      (lines.filter (fun l => ([k, ')'] : Str).isPrefixOf l)).getLast? = some line →
      ((lines.foldl parseLine s).options.lookup k) = some (pyStrip (line.drop 2))) ∧
    (∀ (s : ScanState) (line : Str),
      qMarker.isPrefixOf line = false →
      (∀ k ∈ optionLetters, ([k, ')'] : Str).isPrefixOf line = false) →
      caMarker.isPrefixOf line = false →
      parseLine s line = s) := by
  constructor
  · intro s lines
    induction lines using List.reverseRecOn generalizing s with
    | nil =>
      intro k line hk hlast
      simp at hlast
    | append_singleton ls l ih =>
      intro k line hk hlast
      rw [List.filter_append] at hlast
      rw [List.foldl_append, List.foldl_cons, List.foldl_nil]
      cases hl : ([k, ')'] : Str).isPrefixOf l with
      | true =>
        rw [show List.filter (fun l => ([k, ')'] : Str).isPrefixOf l) [l] = [l] by
              simp [List.filter, hl],
          List.getLast?_concat] at hlast
        obtain rfl : l = line := Option.some.inj hlast
        obtain ⟨t, rfl⟩ := isPrefixOf_two_elim hl
        rw [parseLine_option_line _ _ hk]
        show (dictInsert (ls.foldl parseLine s).options k (pyStrip t)).lookup k =
          some (pyStrip ((k :: ')' :: t).drop 2))
        rw [lookup_dictInsert_self]
        rfl
      | false =>
        rw [show List.filter (fun l => ([k, ')'] : Str).isPrefixOf l) [l] = [] by
              simp [List.filter, hl],
          List.append_nil] at hlast
        rw [parseLine_lookup_unchanged _ l hl]
        exact ih s k line hk hlast
  · exact parseLine_unmatched

/-- C8 witness: two "A)" lines — the second one wins. -/
theorem c8_duplicate_letters_last_wins_witness :
    ((["A) 1".toList, "A) 9".toList].foldl parseLine ⟨[], [], []⟩).options.lookup 'A') =
      some (pyStrip ("A) 9".toList.drop 2)) :=
  c8_duplicate_letters_last_wins.1 ⟨[], [], []⟩ ["A) 1".toList, "A) 9".toList] 'A'
    ("A) 9".toList) (by decide) (by decide)

/-- C10: whenever the parser does not return the fallback question, the
returned options mapping has exactly 5 entries and its keys are exactly
the letters A through E. -/
theorem c10_accepted_option_keys (text : Str) (k : Char)
    (h : parse_response text ≠ fallbackQuestion) :
    (parse_response text).options.length = 5 ∧
      (((parse_response text).options.lookup k).isSome = true ↔ k ∈ optionLetters) := by
  by_cases hv : (scanText text).question = [] ∨ (scanText text).options.length < 5 ∨
      (scanText text).correct = []
  · exact absurd (parse_response_fallback hv) h
  · push_neg at hv
    rw [parse_response_accepted hv]
    obtain ⟨hnd, hsub⟩ := scanText_options_invariant text
    have hsp : List.Subperm (dictKeys (scanText text).options) optionLetters :=
      hnd.subperm hsub
    have hlen : (dictKeys (scanText text).options).length = 5 := by
      have hle := hsp.length_le
      have hge : 5 ≤ (dictKeys (scanText text).options).length := by
        rw [dictKeys_length]
        exact hv.2.1
      have h5 : optionLetters.length = 5 := rfl
      omega
    have hperm : List.Perm (dictKeys (scanText text).options) optionLetters :=
      hsp.perm_of_length_le (by rw [hlen]; decide)
    constructor
    · show (scanText text).options.length = 5
      rw [← dictKeys_length, hlen]
    · show ((scanText text).options.lookup k).isSome = true ↔ k ∈ optionLetters
      rw [lookup_isSome_iff]
      exact hperm.mem_iff

/-- C10 witness: a fully well-formed text; its parse has the five keys,
and letter C is among them. -/
theorem c10_accepted_option_keys_witness :
    (parse_response ("Question: What?\nA) 1\nB) 2\nC) 3\nD) 4\nE) 5\nCorrect Answer: C".toList)).options.length = 5 ∧
      (((parse_response ("Question: What?\nA) 1\nB) 2\nC) 3\nD) 4\nE) 5\nCorrect Answer: C".toList)).options.lookup 'C').isSome = true ↔
        'C' ∈ optionLetters) :=
  c10_accepted_option_keys ("Question: What?\nA) 1\nB) 2\nC) 3\nD) 4\nE) 5\nCorrect Answer: C".toList)
    'C' (by decide)

/-- A line that is the marker `"Correct Answer:"` followed by `t` takes
the correct-answer branch of the scanner. -/
theorem parseLine_ca_line (s : ScanState) (t : Str) :
    parseLine s (caMarker ++ t) =
      { s with correct := pyStrip (replaceAll caMarker [] (caMarker ++ t)) } := by
  unfold parseLine
  rw [if_neg (by simp [qMarker, caMarker]), if_neg (by simp [caMarker]),
    if_pos (isPrefixOf_append_self caMarker t)]

/-! ## C4 -/

/-- C4 as stated fails: the text below is a "Question:" line whose
content ("Question:") has non-empty trimmed content, five well-formed
option lines, and a "Correct Answer: C" line — yet the parser returns
the fallback question with correct letter "B", because `str.replace`
removes every occurrence of the marker and leaves an empty prompt. -/
theorem c4_wellformed_counterexample :
    parse_response ("Question:Question:\nA) 1\nB) 2\nC) 3\nD) 4\nE) 5\nCorrect Answer: C".toList) =
      fallbackQuestion ∧
    (parse_response ("Question:Question:\nA) 1\nB) 2\nC) 3\nD) 4\nE) 5\nCorrect Answer: C".toList)).correct_answer ≠
      "C".toList := by
  decide

/-- A line followed by a newline and the rest of the text. -/
def joinLine (line rest : Str) : Str :=
  line ++ '\n' :: rest

/-- A well-formed generation text: a "Question:" line with content `q`,
one line per option letter with contents `a`..`e`, and a final line
"Correct Answer: C", joined by newlines. -/
def wellFormedText (q a b c d e : Str) : Str :=
  joinLine (qMarker ++ q)
    (joinLine ('A' :: ')' :: a)
      (joinLine ('B' :: ')' :: b)
        (joinLine ('C' :: ')' :: c)
          (joinLine ('D' :: ')' :: d)
            (joinLine ('E' :: ')' :: e)
              (caMarker ++ [' ', 'C']))))))

/-- C4 (amended): for a well-formed text made of a "Question:" line, the
five option lines "A)".."E)" and a "Correct Answer: C" line, where the
question line still has a non-empty prompt after the scanner removes
every occurrence of "Question:" and trims, the parser returns that
prompt, the letter "C", and exactly the five options, each the text
after its 2-character marker, trimmed. -/
theorem c4_wellformed_parse (q a b c d e : Str)
    (hq : '\n' ∉ q) (ha : '\n' ∉ a) (hb : '\n' ∉ b) (hc : '\n' ∉ c)
    (hd : '\n' ∉ d) (he : '\n' ∉ e)
    (hp : pyStrip (replaceAll qMarker [] (qMarker ++ q)) ≠ []) :
    parse_response (wellFormedText q a b c d e) =
      { question := pyStrip (replaceAll qMarker [] (qMarker ++ q))
        options := [('A', pyStrip a), ('B', pyStrip b), ('C', pyStrip c),
                    ('D', pyStrip d), ('E', pyStrip e)]
        correct_answer := ['C'] } := by
  have hl1 : '\n' ∉ qMarker ++ q := by simp [qMarker, hq]
  have hl2 : '\n' ∉ ('A' :: ')' :: a) := by simp [ha]
  have hl3 : '\n' ∉ ('B' :: ')' :: b) := by simp [hb]
  have hl4 : '\n' ∉ ('C' :: ')' :: c) := by simp [hc]
  have hl5 : '\n' ∉ ('D' :: ')' :: d) := by simp [hd]
  have hl6 : '\n' ∉ ('E' :: ')' :: e) := by simp [he]
  have hl7 : '\n' ∉ caMarker ++ [' ', 'C'] := by decide
  have hcorr : pyStrip (replaceAll caMarker [] (caMarker ++ [' ', 'C'])) = ['C'] := by decide
  have hscan : scanText (wellFormedText q a b c d e) =
      { question := pyStrip (replaceAll qMarker [] (qMarker ++ q))
        options := [('A', pyStrip a), ('B', pyStrip b), ('C', pyStrip c),
                    ('D', pyStrip d), ('E', pyStrip e)]
        correct := ['C'] } := by
    unfold scanText wellFormedText joinLine
    rw [pySplitNl_append_cons _ hl1, pySplitNl_append_cons _ hl2, pySplitNl_append_cons _ hl3,
      pySplitNl_append_cons _ hl4, pySplitNl_append_cons _ hl5, pySplitNl_append_cons _ hl6,
      pySplitNl_no_newline hl7]
    simp only [List.foldl_cons, List.foldl_nil]
    rw [parseLine_question_line,
      parseLine_option_line _ 'A' (by decide) _,
      parseLine_option_line _ 'B' (by decide) _,
      parseLine_option_line _ 'C' (by decide) _,
      parseLine_option_line _ 'D' (by decide) _,
      parseLine_option_line _ 'E' (by decide) _,
      parseLine_ca_line, hcorr]
    simp [dictInsert]
  have hv : (scanText (wellFormedText q a b c d e)).question ≠ [] ∧
      5 ≤ (scanText (wellFormedText q a b c d e)).options.length ∧
      (scanText (wellFormedText q a b c d e)).correct ≠ [] := by
    rw [hscan]
    exact ⟨hp, by simp, by simp⟩
  rw [parse_response_accepted hv, hscan]

/-- C4 witness for the amended theorem: concrete well-formed content. -/
theorem c4_wellformed_parse_witness :
    parse_response (wellFormedText (" What?".toList) (" 1".toList) (" 2".toList)
        (" 3".toList) (" 4".toList) (" 5".toList)) =
      { question := pyStrip (replaceAll qMarker [] (qMarker ++ " What?".toList))
        options := [('A', pyStrip (" 1".toList)), ('B', pyStrip (" 2".toList)),
                    ('C', pyStrip (" 3".toList)), ('D', pyStrip (" 4".toList)),
                    ('E', pyStrip (" 5".toList))]
        correct_answer := ['C'] } :=
  c4_wellformed_parse (" What?".toList) (" 1".toList) (" 2".toList) (" 3".toList)
    (" 4".toList) (" 5".toList) (by decide) (by decide) (by decide) (by decide)
    (by decide) (by decide) (by decide)

end GmatApp
